import Mathlib

/-!
Verification development for the one-wire bit-banged bus driver
(`one-wire.c` / `one-wire.h`).

The driver's pure algorithms (the CRC) are embedded directly as Lean
functions on `Nat`, with machine-integer width made explicit where the C
relies on `uint8_t` truncation.  The bus-facing operations are embedded
twice, at the two levels the source exposes:

* a *primitive level*, where the line is an oracle tape of sample
  results consumed in order by the polling primitives and read slots,
  and every line operation is recorded in an event trace (this level
  settles the phase-gating and frame-effect properties); and
* a *device level*, where the bus carries a list of 8-byte slave
  addresses executing the ROM-search protocol (open-drain AND of the
  slave responses, deselection on a mismatched written bit), which is
  the simulated bus the search properties quantify over.
-/

/-- The session state enumeration of the driver (`wire1state_t`). -/
inductive wire1state_t where
  | IDLE
  | ROM_COMMAND
  | FUNCTION_COMMAND
  | WAIT_POLL
deriving DecidableEq, Repr

open wire1state_t

/-- Bit-value macro `BV(n) = 1 << n` from the header. -/
def BV (n : Nat) : Nat := 1 <<< n

/-- The polynomial used for the one-wire CRC (`W1_CRC_POLYNOMIAL`). -/
def W1_CRC_POLYNOMIAL : Nat := 0x8C

/-- Position of the checksum byte in an address (`W1_ADDR_BYTE_CRC`). -/
def W1_ADDR_BYTE_CRC : Nat := 7

/-- ROM command byte for the search (`W1_ROMCMD_SEARCH`). -/
def W1_ROMCMD_SEARCH : Nat := 0xF0

/-- ROM command byte for the alarm search (`W1_ROMCMD_ALARM`). -/
def W1_ROMCMD_ALARM : Nat := 0xEC

/-- ROM command byte for single-device address read (`W1_ROMCMD_READ`). -/
def W1_ROMCMD_READ : Nat := 0x33

/-- ROM command byte for match-ROM addressing (`W1_ROMCMD_MATCH`). -/
def W1_ROMCMD_MATCH : Nat := 0x55

/-- ROM command byte for skip-ROM addressing (`W1_ROMCMD_SKIP`). -/
def W1_ROMCMD_SKIP : Nat := 0xCC

/-- Function command byte for the parasite-power query
(`W1_FUNC_PARASITE_POWER`). -/
def W1_FUNC_PARASITE_POWER : Nat := 0xB4

/-- One inner-loop step of `crc8`: XOR the data bit `dbit` with the low
bit of the remainder, shift the remainder right, and fold in the
polynomial when the XOR was 1.  All quantities live in `uint8_t`; on
`Nat` the shift and XOR preserve the `< 256` bound, proved below. -/
def crc8Bit (polynomial rem dbit : Nat) : Nat :=
  if dbit ^^^ (rem &&& BV 0) ≠ 0 then (rem >>> 1) ^^^ polynomial else rem >>> 1

/-- The inner `for (j = 0; j < 8; j++)` loop of `crc8`, processing the
eight bits of one data byte, least significant first. -/
def crc8Byte (polynomial rem byte : Nat) : Nat :=
  (List.range 8).foldl (fun r j => crc8Bit polynomial r ((byte >>> j) &&& BV 0)) rem

/-- The `crc8` function: folds `crc8Byte` over the first `size` bytes of
`data`, starting from the chaining seed `crcIn`. -/
def crc8 (crcIn polynomial : Nat) (data : List Nat) (size : Nat) : Nat :=
  (data.take size).foldl (crc8Byte polynomial) crcIn

/-- One `crc8Bit` step keeps the remainder inside `uint8_t` range. -/
theorem crc8Bit_lt (polynomial rem dbit : Nat)
    (hp : polynomial < 256) (hr : rem < 256) :
    crc8Bit polynomial rem dbit < 256 := by
  have hshift : rem >>> 1 < 256 := by
    rw [Nat.shiftRight_eq_div_pow]
    exact lt_of_le_of_lt (Nat.div_le_self rem (2 ^ 1)) hr
  have h2 : (2 : Nat) ^ 8 = 256 := by norm_num
  unfold crc8Bit
  split
  · rw [← h2]
    exact Nat.xor_lt_two_pow (by rw [h2]; exact hshift) (by rw [h2]; exact hp)
  · exact hshift

/-- `crc8Byte` keeps the remainder inside `uint8_t` range. -/
theorem crc8Byte_lt (polynomial rem byte : Nat)
    (hp : polynomial < 256) (hr : rem < 256) :
    crc8Byte polynomial rem byte < 256 := by
  unfold crc8Byte
  have h : ∀ (l : List Nat) (r : Nat), r < 256 →
      l.foldl (fun r j => crc8Bit polynomial r ((byte >>> j) &&& BV 0)) r < 256 := by
    intro l
    induction l with
    | nil => intro r hr; simpa using hr
    | cons x xs ih =>
        intro r hr
        exact ih _ (crc8Bit_lt _ _ _ hp hr)
  exact h _ _ hr

/-- `crc8` keeps the remainder inside `uint8_t` range. -/
theorem crc8_lt (crcIn polynomial : Nat) (data : List Nat) (size : Nat)
    (hp : polynomial < 256) (hc : crcIn < 256) :
    crc8 crcIn polynomial data size < 256 := by
  unfold crc8
  have h : ∀ (l : List Nat) (r : Nat), r < 256 →
      l.foldl (crc8Byte polynomial) r < 256 := by
    intro l
    induction l with
    | nil => intro r hr; simpa using hr
    | cons x xs ih =>
        intro r hr
        exact ih _ (crc8Byte_lt _ _ _ hp hr)
  exact h _ _ hc

/-- Feeding a value to `crc8Bit` as both remainder and data bit source
at position `n` only shifts: after `n` such steps starting from `c`,
the remainder is `c >>> n`. -/
theorem crc8Byte_self_shift (polynomial c : Nat) (n : Nat) :
    (List.range n).foldl (fun r j => crc8Bit polynomial r ((c >>> j) &&& BV 0)) c
      = c >>> n := by
  induction n with
  | zero => simp
  | succ k ih =>
      rw [List.range_succ, List.foldl_append, ih]
      simp only [List.foldl_cons, List.foldl_nil]
      unfold crc8Bit
      rw [if_neg (by simp)]
      exact (Nat.shiftRight_add c k 1).symm

/-- Processing a byte value as data with itself as the incoming
remainder cancels every bit: the remainder shifts to zero. -/
theorem crc8Byte_self (polynomial c : Nat) (hc : c < 256) :
    crc8Byte polynomial c c = 0 := by
  unfold crc8Byte
  rw [crc8Byte_self_shift]
  rw [Nat.shiftRight_eq_div_pow]
  exact Nat.div_eq_of_lt hc

/-- Claim C2: for every seed byte and every 7-byte payload, appending
`crc8(seed, 0x8C, payload, 7)` to the payload and recomputing `crc8`
with the same seed and polynomial over the resulting 8 bytes yields
zero — the CRC self-check identity `crc(payload || crc(payload)) = 0`. -/
theorem crc8_selfcheck (seed : Nat) (data : List Nat)
    (hseed : seed < 256) (hlen : data.length = 7)
    (hbytes : ∀ b ∈ data, b < 256) :
    crc8 seed W1_CRC_POLYNOMIAL
      (data ++ [crc8 seed W1_CRC_POLYNOMIAL data 7]) 8 = 0 := by
  have htake7 : data.take 7 = data := List.take_of_length_le (by omega)
  have hc : List.foldl (crc8Byte W1_CRC_POLYNOMIAL) seed data < 256 := by
    have h := crc8_lt seed W1_CRC_POLYNOMIAL data 7 (by decide) hseed
    unfold crc8 at h
    rwa [htake7] at h
  have hcrc : crc8 seed W1_CRC_POLYNOMIAL data 7
      = List.foldl (crc8Byte W1_CRC_POLYNOMIAL) seed data := by
    unfold crc8
    rw [htake7]
  have htake8 : ∀ c : Nat, (data ++ [c]).take 8 = data ++ [c] := fun c =>
    List.take_of_length_le (by simp [hlen])
  rw [hcrc]
  unfold crc8
  rw [htake8, List.foldl_append]
  simp only [List.foldl_cons, List.foldl_nil]
  exact crc8Byte_self _ _ hc

/-- Witness for `crc8_selfcheck` at seed 0 and payload
`[0x28, 1, 2, 3, 4, 5, 6]`. -/
theorem crc8_selfcheck_witness :
    ((0 : Nat) < 256 ∧ ([0x28, 1, 2, 3, 4, 5, 6] : List Nat).length = 7 ∧
      (∀ b ∈ ([0x28, 1, 2, 3, 4, 5, 6] : List Nat), b < 256)) ∧
    crc8 0 W1_CRC_POLYNOMIAL
      ([0x28, 1, 2, 3, 4, 5, 6] ++ [crc8 0 W1_CRC_POLYNOMIAL [0x28, 1, 2, 3, 4, 5, 6] 7]) 8 = 0 :=
  ⟨⟨by decide, by decide, by decide⟩,
    crc8_selfcheck 0 [0x28, 1, 2, 3, 4, 5, 6] (by decide) (by decide) (by decide)⟩

/-!
Primitive-level machine

The line is abstracted as an oracle tape of sample results: each
primitive that samples the line (the two polling loops, and the
supersampling inside a read slot) consumes the next tape entry, which
plays the role the sampled counter plays in the C (`0` means the polled
level was never seen / no low sample was taken).  Every line operation
is prepended to an event trace (most recent first), so the frame-effect
claims can talk about exactly which bus traffic a call produced.
-/

/-- One recorded bus operation. -/
inductive W1Event where
  /-- `wire1Hold()` — drive the line low. -/
  | holdE
  /-- `wire1Release()` — release the line to the pull-up. -/
  | releaseE
  /-- `wire1Poll4Hold(n)` observing result `r`. -/
  | pollHoldE (n r : Nat)
  /-- `wire1Poll4Release(n)` observing result `r`. -/
  | pollReleaseE (n r : Nat)
  /-- The supersampling window of `wire1ReadBit`, with `r` low samples. -/
  | readSlotE (r : Nat)
  /-- `wire1WriteBit(b)` — a write slot carrying the C argument value. -/
  | writeSlotE (b : Nat)
deriving DecidableEq, Repr

open W1Event

/-- The driver state together with the line oracle: the globals
`wire1state` and `wire1_idleloops`, the remaining oracle tape, and the
trace of bus operations performed so far (most recent first). -/
structure W1M where
  wire1state : wire1state_t
  wire1_idleloops : Nat
  tape : List Nat
  trace : List W1Event
deriving DecidableEq, Repr

/-- Consume the next oracle entry (an absent entry reads as 0, an idle
line). -/
def takeTape (m : W1M) : Nat × W1M :=
  (m.tape.headD 0, { m with tape := m.tape.tail })

/-- `wire1Hold`: drive the line low. -/
def wire1Hold (m : W1M) : W1M :=
  { m with trace := holdE :: m.trace }

/-- `wire1Release`: release the line. -/
def wire1Release (m : W1M) : W1M :=
  { m with trace := releaseE :: m.trace }

/-- `wire1Poll4Hold(nloops)`: poll until the line is driven low; the
oracle supplies the returned count (0 = timeout). -/
def wire1Poll4Hold (nloops : Nat) (m : W1M) : Nat × W1M :=
  let (r, m) := takeTape m
  (r, { m with trace := pollHoldE nloops r :: m.trace })

/-- `wire1Poll4Release(nloops)`: poll until the line is released; the
oracle supplies the returned count (0 = timeout). -/
def wire1Poll4Release (nloops : Nat) (m : W1M) : Nat × W1M :=
  let (r, m) := takeTape m
  (r, { m with trace := pollReleaseE nloops r :: m.trace })

/-- `wire1ReadBit`: hold >1 us, release, then supersample the line; the
oracle supplies `bittest`, the number of low samples.  Returns 0 if the
line was sampled low at least once, otherwise 0xFF. -/
def wire1ReadBit (m : W1M) : Nat × W1M :=
  let m := wire1Release (wire1Hold m)
  let (bittest, m) := takeTape m
  (if bittest > 0 then 0 else 0xFF, { m with trace := readSlotE bittest :: m.trace })

/-- `wire1WriteBit(bit)`: hold, then for a 1 release early and wait out
the slot, for a 0 wait out the slot held and release. -/
def wire1WriteBit (bit : Nat) (m : W1M) : W1M :=
  let m := wire1Hold m
  let m :=
    if bit ≠ 0 then (wire1Poll4Hold 15 (wire1Release m)).2
    else wire1Release (wire1Poll4Release 15 m).2
  { m with trace := writeSlotE bit :: m.trace }

/-- `wire1ReadByte`: read 8 bits, LSB first, OR-ing each set bit into
its position. -/
def wire1ReadByte (m : W1M) : Nat × W1M :=
  (List.range 8).foldl
    (fun p i =>
      let (r, m) := wire1ReadBit p.2
      (if r ≠ 0 then p.1 ||| BV i else p.1, m))
    (0, m)

/-- `wire1WriteByte(writeByte)`: write 8 bits, LSB first, each write
slot carrying `writeByte & BV(i)` exactly as the C passes it. -/
def wire1WriteByte (writeByte : Nat) (m : W1M) : W1M :=
  (List.range 8).foldl (fun m i => wire1WriteBit (writeByte &&& BV i) m) m

/-- The polling loop of `wire1Poll4Idle`: one read slot per iteration,
continuing while the wire reads low and `i` is below `wire1_idleloops`
(the remaining budget is the fuel, so fuel 0 means `i` reached the
bound). -/
def wire1Poll4IdleAux : Nat → Nat → W1M → Nat × W1M
  | fuel, i, m =>
    let (r, m) := wire1ReadBit m
    if r = 0 then
      match fuel with
      | 0 => (i, m)
      | fuel + 1 => wire1Poll4IdleAux fuel (i + 1) m
    else (i, m)

/-- `wire1Poll4Idle`: poll the slaves until none drives the wire low;
returns 0 on timeout, otherwise moves the session to IDLE and returns
the loop count. -/
def wire1Poll4Idle (m : W1M) : Nat × W1M :=
  let (i, m) := wire1Poll4IdleAux m.wire1_idleloops 0 m
  if i = m.wire1_idleloops then (0, m)
  else (i, { m with wire1state := IDLE })

/-- `wire1SetupPoll4Idle(nloops)`: arm the post-command idle poll. -/
def wire1SetupPoll4Idle (nloops : Nat) (m : W1M) : W1M :=
  { m with wire1state := WAIT_POLL, wire1_idleloops := nloops }

/-- `wire1Reset`: wait out an armed idle poll, hold for the reset
pulse, release, then check for a presence pulse and validate its
length.  Returns 1 with state ROM_COMMAND on success, 0 with state
IDLE on an empty bus, negative with the documented state on errors. -/
def wire1Reset (m : W1M) : Int × W1M :=
  let idleFail : Bool × W1M :=
    if m.wire1state = WAIT_POLL then
      let (r, m) := wire1Poll4Idle m
      (r = 0, m)
    else (false, m)
  if idleFail.1 then (-1, idleFail.2)
  else
    let m := wire1Hold idleFail.2
    let (_, m) := wire1Poll4Release 122 m
    let m := wire1Release m
    let (r1, m) := wire1Poll4Hold 15 m
    if r1 = 0 then (0, { m with wire1state := IDLE })
    else
      let (r2, m) := wire1Poll4Release 60 m
      if r2 = 0 then (-1, { m with wire1state := IDLE })
      else
        let (r3, m) := wire1Poll4Hold 58 m
        if r3 ≠ 0 then (-2, { m with wire1state := IDLE })
        else (1, { m with wire1state := ROM_COMMAND })

/-- `wire1MatchROM(addr)`: reset, check the post-reset state, then send
the match command and the 8 address bytes. -/
def wire1MatchROM (addr : List Nat) (m : W1M) : Int × W1M :=
  let (_, m) := wire1Reset m
  if m.wire1state ≠ ROM_COMMAND then (-1, m)
  else
    let m := wire1WriteByte W1_ROMCMD_MATCH m
    let m := (List.range 8).foldl (fun m i => wire1WriteByte (addr.getD i 0) m) m
    (0, { m with wire1state := FUNCTION_COMMAND })

/-- `wire1SkipROM()`: reset, check the post-reset state, then send the
skip command. -/
def wire1SkipROM (m : W1M) : Int × W1M :=
  let (_, m) := wire1Reset m
  if m.wire1state ≠ ROM_COMMAND then (-1, m)
  else
    let m := wire1WriteByte W1_ROMCMD_SKIP m
    (0, { m with wire1state := FUNCTION_COMMAND })

/-- `wire1ReadSingleROM(addr)`: reset, check the post-reset state, send
the read command, read the 8 address bytes into the caller's buffer,
and validate the checksum byte. -/
def wire1ReadSingleROM (addrBuf : List Nat) (m : W1M) : Int × List Nat × W1M :=
  let (_, m) := wire1Reset m
  if m.wire1state ≠ ROM_COMMAND then (-1, addrBuf, m)
  else
    let m := wire1WriteByte W1_ROMCMD_READ m
    let (addr, m) := (List.range 8).foldl
      (fun p i =>
        let (r, m) := wire1ReadByte p.2
        (p.1.set i r, m))
      (addrBuf, m)
    if addr.getD W1_ADDR_BYTE_CRC 0 = crc8 0 W1_CRC_POLYNOMIAL addr 7 then
      (0, addr, { m with wire1state := FUNCTION_COMMAND })
    else
      (1, addr, { m with wire1state := IDLE })

/-- `wire1ReadPowerSupply()`: phase-gated function command; on the
legal phase it sends the parasite-power query, reads one bit (low
means at least one slave is parasite powered) and returns to IDLE. -/
def wire1ReadPowerSupply (m : W1M) : Int × W1M :=
  if m.wire1state ≠ FUNCTION_COMMAND then (-2, m)
  else
    let m := wire1WriteByte W1_FUNC_PARASITE_POWER m
    let (r, m) := wire1ReadBit m
    let parasite_power : Int := if r = 0 then 1 else 0
    (parasite_power, { m with wire1state := IDLE })

/-- Recognize a write-slot event. -/
def isWriteSlot : W1Event → Bool
  | writeSlotE _ => true
  | _ => false

/-- Number of write slots in a trace. -/
def countWriteSlots (tr : List W1Event) : Nat :=
  tr.countP isWriteSlot

/-- The values carried by the write slots of a trace, in chronological
order (the trace itself is most recent first). -/
def writtenBits (tr : List W1Event) : List Nat :=
  tr.reverse.filterMap (fun e => match e with | writeSlotE b => some b | _ => none)

/-!
Device-level search

`wire1Search` is embedded against the simulated bus the spec describes:
a list of slave addresses (8 little-endian bytes each) participates in
the search; during the two read slots of a bit position the line is the
open-drain AND of the slave responses, and a slave that receives a
written bit different from its own address bit deselects until the next
reset.
-/

/-- `maskBitInArray(arr, bit)`: mask bit `bit%8` out of byte `bit/8`. -/
def maskBitInArray (arr : List Nat) (bit : Nat) : Nat :=
  arr.getD (bit / 8) 0 &&& BV (bit % 8)

/-- Modelled from the spec: during the first (true-bit) read slot of
search position `iBit`, every participating slave with address bit 0
drives the line low; `wire1ReadBit` thus returns 0 exactly when some
participating slave has a 0 bit there, otherwise 0xFF. -/
def searchAckRead (S : List (List Nat)) (iBit : Nat) : Nat :=
  if S.any (fun d => maskBitInArray d iBit == 0) then 0 else 0xFF

/-- Modelled from the spec: during the second (complement) read slot
every participating slave with address bit 1 drives the line low. -/
def searchNAckRead (S : List (List Nat)) (iBit : Nat) : Nat :=
  if S.any (fun d => maskBitInArray d iBit != 0) then 0 else 0xFF

/-- Modelled from the spec: after the master writes a bit back, the
slaves whose address bit at that position differs from the written bit
deselect from the remainder of the search. -/
def searchSelect (S : List (List Nat)) (iBit writeBit : Nat) : List (List Nat) :=
  S.filter (fun d => (maskBitInArray d iBit != 0) == (writeBit != 0))

/-- The conflict (both-slots-low) branch of the search loop: at the
previous conflict position write a 1; with an "uninitialized" conflict
position (the C compares the `uint8_t` argument, promoted to `int`,
against -1) write a 0; otherwise follow the start address's bit and,
when that bit is 0, record this position as the new conflict position.
Returns the value passed to `wire1WriteBit` and the updated
`currConfPos`. -/
def searchConflictChoice (addrStart : List Nat) (lastConfPos iBit : Nat)
    (currConfPos : Int) : Nat × Int :=
  if iBit = lastConfPos then (1, currConfPos)
  else if (lastConfPos : Int) = -1 then (0, currConfPos)
  else if maskBitInArray addrStart iBit = 0 then
    (maskBitInArray addrStart iBit, (iBit : Int))
  else (maskBitInArray addrStart iBit, currConfPos)

/-- The `if (writeBit) addrOut[iByte] |= BV(iBit%8);` store of the
loop body: OR the bit into byte `iBit / 8` of the output buffer when
the written value is nonzero. -/
def searchStoreBit (addrOut : List Nat) (iBit w : Nat) : List Nat :=
  if w ≠ 0 then addrOut.set (iBit / 8) (addrOut.getD (iBit / 8) 0 ||| BV (iBit % 8))
  else addrOut

/-- The zeroing of the output byte at a byte boundary (`iByte` always
equals `iBit / 8`, since it starts at `(uint8_t)-1` and is incremented
exactly when `iBit % 8 == 0`). -/
def searchZeroByte (addrOut : List Nat) (iBit : Nat) : List Nat :=
  if iBit % 8 = 0 then addrOut.set (iBit / 8) 0 else addrOut

/-- One iteration of the 64-bit loop of `wire1Search` on the simulated
bus: zero the output byte at a byte boundary, perform the two read
slots, then branch on the (ack, nack) pair: on a conflict resolve via
`searchConflictChoice`, on (high, high) fail with -128, otherwise
follow the agreed bit.  Returns the new participating set, output
buffer, conflict position, and the value passed to the write slot. -/
def searchStep (addrStart : List Nat) (lastConfPos iBit : Nat)
    (S : List (List Nat)) (addrOut : List Nat) (currConfPos : Int) :
    Except (Int × List Nat) (List (List Nat) × List Nat × Int × Nat) :=
  if searchAckRead S iBit = 0 ∧ searchNAckRead S iBit = 0 then
    .ok (searchSelect S iBit (searchConflictChoice addrStart lastConfPos iBit currConfPos).1,
         searchStoreBit (searchZeroByte addrOut iBit) iBit
           (searchConflictChoice addrStart lastConfPos iBit currConfPos).1,
         (searchConflictChoice addrStart lastConfPos iBit currConfPos).2,
         (searchConflictChoice addrStart lastConfPos iBit currConfPos).1)
  else if searchAckRead S iBit ≠ 0 ∧ searchNAckRead S iBit ≠ 0 then
    .error (-128, searchZeroByte addrOut iBit)
  else
    .ok (searchSelect S iBit (searchAckRead S iBit),
         searchStoreBit (searchZeroByte addrOut iBit) iBit (searchAckRead S iBit),
         currConfPos, searchAckRead S iBit)

/-- The 64-bit loop of `wire1Search`, by remaining iteration count. -/
def searchLoop (addrStart : List Nat) (lastConfPos : Nat) :
    Nat → Nat → List (List Nat) → List Nat → Int →
    Except (Int × List Nat) (List (List Nat) × List Nat × Int)
  | 0, _, S, addrOut, currConfPos => .ok (S, addrOut, currConfPos)
  | n + 1, iBit, S, addrOut, currConfPos =>
    match searchStep addrStart lastConfPos iBit S addrOut currConfPos with
    | .error e => .error e
    | .ok (S', addrOut', currConfPos', _) =>
      searchLoop addrStart lastConfPos n (iBit + 1) S' addrOut' currConfPos'

/-- `wire1Search` on the simulated bus `devs` (the slave set selected
by `rom_command`: all slaves for the search command, the alarming ones
for the alarm command), for a session not armed in WAIT_POLL: the
embedded `wire1Reset` reports presence exactly when a slave is
attached, the ROM command byte is broadcast, the 64-bit loop runs, and
the discovered address's checksum byte is verified.  Returns the
`int8_t` result, the final `wire1state`, and the output buffer. -/
def wire1Search (devs : List (List Nat)) (addrOut addrStart : List Nat)
    (lastConfPos rom_command : Nat) : Int × wire1state_t × List Nat :=
  if devs.isEmpty then (-1, IDLE, addrOut)
  else
    match searchLoop addrStart lastConfPos 64 0 devs addrOut 64 with
    | .error e => (e.1, ROM_COMMAND, e.2)
    | .ok (_, addrOut, currConfPos) =>
      if addrOut.getD W1_ADDR_BYTE_CRC 0 = crc8 0 W1_CRC_POLYNOMIAL addrOut 7 then
        (currConfPos, FUNCTION_COMMAND, addrOut)
      else
        (-1, IDLE, addrOut)

/-- `wire1SearchLargerROM`: the search with the search-ROM command. -/
def wire1SearchLargerROM (devs : List (List Nat)) (addrOut addrStart : List Nat)
    (lastConfPos : Nat) : Int × wire1state_t × List Nat :=
  wire1Search devs addrOut addrStart lastConfPos W1_ROMCMD_SEARCH

/-- `wire1AlarmSearchLargerROM`: the search with the alarm command,
over the alarming slaves. -/
def wire1AlarmSearchLargerROM (devs : List (List Nat)) (addrOut addrStart : List Nat)
    (lastConfPos : Nat) : Int × wire1state_t × List Nat :=
  wire1Search devs addrOut addrStart lastConfPos W1_ROMCMD_ALARM

/-- The 64-bit numeric value of an 8-byte little-endian address (byte 0
is the family code and least significant byte, per the one-wire
registration-number convention the search walks from bit 0 up). -/
def addrVal (a : List Nat) : Nat :=
  (List.range 8).foldl (fun acc i => acc + a.getD i 0 * 256 ^ i) 0

/-!
Helper lemmas
-/

/-- Reading back the element just set, within bounds. -/
theorem getD_set_self (l : List Nat) (i v : Nat) (h : i < l.length) :
    (l.set i v).getD i 0 = v := by
  induction l generalizing i with
  | nil => simp at h
  | cons x xs ih =>
      cases i with
      | zero => rfl
      | succ j => exact ih j (Nat.lt_of_succ_lt_succ h)

/-- A write slot adds exactly one write-slot event to the trace. -/
theorem countWriteSlots_writeBit (b : Nat) (m : W1M) :
    countWriteSlots (wire1WriteBit b m).trace = countWriteSlots m.trace + 1 := by
  unfold wire1WriteBit wire1Hold wire1Release wire1Poll4Hold wire1Poll4Release
    takeTape countWriteSlots
  split <;> simp [isWriteSlot, List.countP_cons]

/-- Folding write slots over a list adds one write-slot event each. -/
theorem countWriteSlots_foldl_writeBit (f : Nat → Nat) (l : List Nat) (m : W1M) :
    countWriteSlots ((l.foldl (fun m i => wire1WriteBit (f i) m) m).trace)
      = countWriteSlots m.trace + l.length := by
  induction l generalizing m with
  | nil => simp
  | cons x xs ih =>
      simp only [List.foldl_cons, List.length_cons]
      rw [ih, countWriteSlots_writeBit]
      omega

/-- A byte write adds exactly eight write-slot events to the trace. -/
theorem countWriteSlots_writeByte (b : Nat) (m : W1M) :
    countWriteSlots (wire1WriteByte b m).trace = countWriteSlots m.trace + 8 := by
  unfold wire1WriteByte
  rw [countWriteSlots_foldl_writeBit]
  simp

/-- Folding byte writes over a list adds eight write-slot events each. -/
theorem countWriteSlots_foldl_writeByte (f : Nat → Nat) (l : List Nat) (m : W1M) :
    countWriteSlots ((l.foldl (fun m i => wire1WriteByte (f i) m) m).trace)
      = countWriteSlots m.trace + 8 * l.length := by
  induction l generalizing m with
  | nil => simp
  | cons x xs ih =>
      simp only [List.foldl_cons, List.length_cons]
      rw [ih, countWriteSlots_writeByte]
      ring

/-!
Claim theorems
-/

/-- Build a machine state from its four components. -/
def mkW1M (st : wire1state_t) (k : Nat) (tp : List Nat) (tr : List W1Event) : W1M :=
  { wire1state := st, wire1_idleloops := k, tape := tp, trace := tr }

/-- An idle machine used as the base state of several witnesses. -/
def m0 : W1M := { wire1state := IDLE, wire1_idleloops := 0, tape := [], trace := [] }

/-- An idle machine with a given oracle tape. -/
def mTape (tp : List Nat) : W1M :=
  { wire1state := IDLE, wire1_idleloops := 0, tape := tp, trace := [] }

/-- Claim C5: for every session state other than FUNCTION_COMMAND,
`wire1ReadPowerSupply` returns the phase-violation value -2, performs
no operation on the line (the machine, its trace included, is returned
unchanged) and leaves the session state unchanged. -/
theorem wire1ReadPowerSupply_phase_gate (m : W1M)
    (h : m.wire1state ≠ FUNCTION_COMMAND) :
    wire1ReadPowerSupply m = (-2, m) := by
  unfold wire1ReadPowerSupply
  rw [if_pos h]

/-- Witness for `wire1ReadPowerSupply_phase_gate` at the IDLE state. -/
theorem wire1ReadPowerSupply_phase_gate_witness :
    m0.wire1state ≠ FUNCTION_COMMAND ∧ wire1ReadPowerSupply m0 = (-2, m0) :=
  ⟨by decide, wire1ReadPowerSupply_phase_gate m0 (by decide)⟩

/-- A session armed in WAIT_POLL, on a bus where no slave ever drives
the line low (every oracle sample entry is 0). -/
def mWaitPoll : W1M :=
  { wire1state := WAIT_POLL, wire1_idleloops := 1, tape := [0], trace := [] }

/-- Counterexample to claim C8 as stated: a run of `wire1Reset` on a
bus on which no slave ever drives the line low, but starting from the
armed WAIT_POLL state, returns -1 (the idle-poll loop count 0 is
treated as a timeout), not the claimed 0. -/
theorem wire1Reset_empty_bus_cex :
    (wire1Reset mWaitPoll).1 ≠ 0 ∧ (wire1Reset mWaitPoll).1 = -1 := by decide

/-- Claim C8 (amended): for every run of `wire1Reset` that starts in a
session state other than WAIT_POLL — so the presence-detection window
is actually reached — against a bus on which no slave drives the line
low during that window (the presence poll's oracle entry is 0), the
call returns 0 and leaves the session state IDLE. -/
theorem wire1Reset_empty_bus (st : wire1state_t) (k r1 : Nat)
    (tp : List Nat) (tr : List W1Event) (h : st ≠ WAIT_POLL) :
    (wire1Reset (mkW1M st k (r1 :: 0 :: tp) tr)).1 = 0 ∧
    (wire1Reset (mkW1M st k (r1 :: 0 :: tp) tr)).2.wire1state = IDLE := by
  unfold wire1Reset mkW1M
  rw [if_neg h]
  simp [wire1Hold, wire1Release, wire1Poll4Hold, wire1Poll4Release, takeTape]

/-- Witness for `wire1Reset_empty_bus` from IDLE with an empty tape
tail. -/
theorem wire1Reset_empty_bus_witness :
    (IDLE : wire1state_t) ≠ WAIT_POLL ∧
    ((wire1Reset (mkW1M IDLE 0 (0 :: 0 :: []) [])).1 = 0 ∧
     (wire1Reset (mkW1M IDLE 0 (0 :: 0 :: []) [])).2.wire1state = IDLE) :=
  ⟨by decide, wire1Reset_empty_bus IDLE 0 0 [] [] (by decide)⟩

/-- Claim C10: the parameter `lastConfPos` has type `uint8_t`, so after
integer promotion the comparison `lastConfPos == -1` is false for every
argument value, and the `writeBit = 0` branch of the conflict
resolution is unreachable: every conflict at a bit index different
from `lastConfPos` follows the caller-supplied start address's bit
(recording the index when that bit is 0). -/
theorem searchConflictChoice_no_minus_one (lastConfPos : Nat) :
    ((lastConfPos : Int) ≠ -1) ∧
    ∀ (addrStart : List Nat) (iBit : Nat) (cc : Int), iBit ≠ lastConfPos →
      searchConflictChoice addrStart lastConfPos iBit cc
        = (maskBitInArray addrStart iBit,
           if maskBitInArray addrStart iBit = 0 then (iBit : Int) else cc) := by
  constructor
  · omega
  · intro addrStart iBit cc hne
    unfold searchConflictChoice
    rw [if_neg hne, if_neg (by omega)]
    by_cases h : maskBitInArray addrStart iBit = 0
    · rw [if_pos h, if_pos h]
    · rw [if_neg h, if_neg h]

/-- Witness for `searchConflictChoice_no_minus_one` at conflict
position 5 and bit index 3. -/
theorem searchConflictChoice_no_minus_one_witness :
    (3 : Nat) ≠ 5 ∧
    searchConflictChoice (List.replicate 8 0) 5 3 64 = (0, (3 : Int)) :=
  ⟨by decide,
    ((searchConflictChoice_no_minus_one 5).2 (List.replicate 8 0) 3 64
      (by decide)).trans (by decide)⟩

/-- An all-zero 8-byte address buffer. -/
def zeros8 : List Nat := List.replicate 8 0

/-- Counterexample to claim C6 as stated: calling `wire1MatchROM` from
the IDLE session state on an empty bus does fail with -1, but only
after the embedded reset has driven the bus — the trace records a line
hold — contradicting "issues no bus traffic at all". -/
theorem romSelect_phase_cex :
    (mkW1M IDLE 0 [0, 0] []).wire1state = IDLE ∧
    (wire1MatchROM zeros8 (mkW1M IDLE 0 [0, 0] [])).1 = -1 ∧
    holdE ∈ (wire1MatchROM zeros8 (mkW1M IDLE 0 [0, 0] [])).2.trace := by decide

/-- Claim C6 (amended): whenever the reset embedded at the start of
`wire1MatchROM`, `wire1SkipROM` or `wire1ReadSingleROM` does not leave
the session in ROM_COMMAND, the command returns -1 immediately after
that reset, with the machine exactly as the reset left it: no command
byte, address byte, read slot or write slot is issued beyond the bus
traffic of the embedded reset itself (and the caller's buffer is left
untouched by `wire1ReadSingleROM`). -/
theorem romSelect_phase_gate (addr addrBuf : List Nat) (m : W1M)
    (h : (wire1Reset m).2.wire1state ≠ ROM_COMMAND) :
    wire1MatchROM addr m = (-1, (wire1Reset m).2) ∧
    wire1SkipROM m = (-1, (wire1Reset m).2) ∧
    wire1ReadSingleROM addrBuf m = (-1, addrBuf, (wire1Reset m).2) := by
  unfold wire1MatchROM wire1SkipROM wire1ReadSingleROM
  rcases hp : wire1Reset m with ⟨r, m2⟩
  rw [hp] at h
  simp only at h ⊢
  rw [if_pos h, if_pos h, if_pos h]
  exact ⟨rfl, rfl, rfl⟩

/-- Witness for `romSelect_phase_gate` from IDLE on an empty bus. -/
theorem romSelect_phase_gate_witness :
    (wire1Reset (mkW1M IDLE 0 [0, 0] [])).2.wire1state ≠ ROM_COMMAND ∧
    (wire1MatchROM zeros8 (mkW1M IDLE 0 [0, 0] [])
        = (-1, (wire1Reset (mkW1M IDLE 0 [0, 0] [])).2) ∧
     wire1SkipROM (mkW1M IDLE 0 [0, 0] [])
        = (-1, (wire1Reset (mkW1M IDLE 0 [0, 0] [])).2) ∧
     wire1ReadSingleROM zeros8 (mkW1M IDLE 0 [0, 0] [])
        = (-1, zeros8, (wire1Reset (mkW1M IDLE 0 [0, 0] [])).2)) :=
  ⟨by decide, romSelect_phase_gate zeros8 zeros8 (mkW1M IDLE 0 [0, 0] []) (by decide)⟩

/-- An 8-byte address whose checksum byte (0) does not match the CRC of
its first seven bytes. -/
def badAddr : List Nat := [1, 0, 0, 0, 0, 0, 0, 0]

/-- A machine whose oracle tape makes the embedded reset observe a
well-formed presence pulse (presence within 15 polls, released within
60, held no further). -/
def mPresence : W1M := mkW1M IDLE 0 [0, 5, 30, 0] []

set_option maxRecDepth 10000 in
/-- Counterexample to claim C7 as stated: `wire1MatchROM` called with
an address whose byte 7 does not equal the checksum of bytes 0-6, on a
bus with a device present, returns success 0 and transmits the command
byte and all eight address bytes (72 write slots) — it does not fail
and does not withhold the invalid address from the bus. -/
theorem wire1MatchROM_badcrc_cex :
    badAddr.getD W1_ADDR_BYTE_CRC 0 ≠ crc8 0 W1_CRC_POLYNOMIAL badAddr 7 ∧
    (wire1MatchROM badAddr mPresence).1 = 0 ∧
    countWriteSlots (wire1MatchROM badAddr mPresence).2.trace = 72 := by decide

/-- Claim C7 (amended): `wire1MatchROM` performs no checksum
validation at all: for every 8-byte address (valid or not), whenever
the embedded reset leaves the session in ROM_COMMAND the call returns
0, moves the session to FUNCTION_COMMAND, and transmits the match
command plus the eight address bytes — 72 write slots beyond the
traffic of the reset.  Addresses are checksum-validated only where
they are read (`wire1Search`, `wire1ReadSingleROM`). -/
theorem wire1MatchROM_transmits (addr : List Nat) (m : W1M)
    (h : (wire1Reset m).2.wire1state = ROM_COMMAND) :
    (wire1MatchROM addr m).1 = 0 ∧
    (wire1MatchROM addr m).2.wire1state = FUNCTION_COMMAND ∧
    countWriteSlots (wire1MatchROM addr m).2.trace
      = countWriteSlots (wire1Reset m).2.trace + 72 := by
  unfold wire1MatchROM
  rcases hp : wire1Reset m with ⟨r, m2⟩
  rw [hp] at h
  simp only at h ⊢
  rw [if_neg (by simp [h])]
  refine ⟨rfl, rfl, ?_⟩
  show countWriteSlots
      ((List.range 8).foldl (fun m i => wire1WriteByte (addr.getD i 0) m)
        (wire1WriteByte W1_ROMCMD_MATCH m2)).trace = countWriteSlots m2.trace + 72
  rw [countWriteSlots_foldl_writeByte, countWriteSlots_writeByte]
  simp

/-- Witness for `wire1MatchROM_transmits` at a valid-presence bus. -/
theorem wire1MatchROM_transmits_witness :
    (wire1Reset mPresence).2.wire1state = ROM_COMMAND ∧
    ((wire1MatchROM badAddr mPresence).1 = 0 ∧
     (wire1MatchROM badAddr mPresence).2.wire1state = FUNCTION_COMMAND ∧
     countWriteSlots (wire1MatchROM badAddr mPresence).2.trace
       = countWriteSlots (wire1Reset mPresence).2.trace + 72) :=
  ⟨by decide, wire1MatchROM_transmits badAddr mPresence (by decide)⟩

/-- The read-slot results a single compliant loopback slave produces
for a list of written slot values: a written 0 holds the line low for
the whole slot (the read supersample counts lows), a written 1 leaves
the line released (no low samples). -/
def loopbackEcho (ws : List Nat) : List Nat :=
  ws.map (fun v => if v = 0 then 24 else 0)

set_option maxRecDepth 200000 in
/-- Claim C9: `wire1WriteByte b` emits the 8 bits of `b` least
significant first (the write slots carry `b & BV(i)` for i = 0..7),
`wire1ReadByte` assembles its 8 read bits least significant first by
OR-ing each bit into its position, and on a loopback bus with a single
compliant virtual slave a write of `b` immediately followed by a read
returns `b`, for every byte value. -/
theorem wire1WriteByte_readByte_loopback (b : Nat) (hb : b < 256) :
    writtenBits (wire1WriteByte b m0).trace
      = (List.range 8).map (fun i => b &&& BV i) ∧
    (wire1ReadByte (mTape (loopbackEcho (writtenBits (wire1WriteByte b m0).trace)))).1
      = b := by
  revert b
  decide

/-- Witness for `wire1WriteByte_readByte_loopback` at byte 0xA5. -/
theorem wire1WriteByte_readByte_loopback_witness :
    (0xA5 : Nat) < 256 ∧
    (writtenBits (wire1WriteByte 0xA5 m0).trace
       = (List.range 8).map (fun i => 0xA5 &&& BV i) ∧
     (wire1ReadByte (mTape (loopbackEcho (writtenBits (wire1WriteByte 0xA5 m0).trace)))).1
       = 0xA5) :=
  ⟨by decide, wire1WriteByte_readByte_loopback 0xA5 (by decide)⟩

/-- Device with family byte 2 and a valid checksum byte. -/
def devD : List Nat := [2, 0, 0, 0, 0, 0, 0, crc8 0 W1_CRC_POLYNOMIAL [2, 0, 0, 0, 0, 0, 0] 7]

/-- Device with family byte 1 and a valid checksum byte. -/
def devE : List Nat := [1, 0, 0, 0, 0, 0, 0, crc8 0 W1_CRC_POLYNOMIAL [1, 0, 0, 0, 0, 0, 0] 7]

/-- Device with family byte 3 and a valid checksum byte. -/
def devF : List Nat := [3, 0, 0, 0, 0, 0, 0, crc8 0 W1_CRC_POLYNOMIAL [3, 0, 0, 0, 0, 0, 0] 7]

set_option maxRecDepth 40000 in
/-- Claim C1 fails on the code: on the simulated bus carrying the three
distinct valid-checksum devices `devD`, `devE`, `devF`, the chain of
`wire1SearchLargerROM` calls prescribed by the claim (first call with
an all-zero start address and `lastConfPos` 64, each later call seeded
with the previous output address and conflict position) returns `devD`
with conflict position 0 and then `devF` with the sentinel 64 — the
chain terminates after two calls, `devE` is never returned, and the
two returned addresses are in numerically decreasing order.  The
conflict branch at one-wire.c:358 follows the stale start-address bit
even above the seeded conflict position, cutting off the 0-subtrees
that still hold unvisited devices. -/
theorem wire1SearchLargerROM_skips_device :
    wire1SearchLargerROM [devD, devE, devF] zeros8 zeros8 64
      = (0, FUNCTION_COMMAND, devD) ∧
    wire1SearchLargerROM [devD, devE, devF] zeros8 devD 0
      = (64, FUNCTION_COMMAND, devF) ∧
    devE ≠ devD ∧ devE ≠ devF ∧
    devE.getD W1_ADDR_BYTE_CRC 0 = crc8 0 W1_CRC_POLYNOMIAL devE 7 ∧
    addrVal devF < addrVal devD := by decide

/-- OR-ing a power of two into a value makes the corresponding mask
nonzero. -/
theorem or_mask_ne_zero (v r : Nat) : (v ||| BV r) &&& BV r ≠ 0 := by
  intro h
  have ht : ((v ||| BV r) &&& BV r).testBit r = true := by
    simp [Nat.testBit_and, Nat.testBit_or, BV, Nat.one_shiftLeft,
      Nat.testBit_two_pow_self]
  rw [h] at ht
  simp [Nat.zero_testBit] at ht

/-- On a conflict (both read slots low) `searchStep` resolves via
`searchConflictChoice`, stores the chosen bit, and filters the slaves
on it. -/
theorem searchStep_conflict_eq (addrStart : List Nat) (lastConfPos iBit : Nat)
    (S : List (List Nat)) (addrOut : List Nat) (cc : Int)
    (hack : searchAckRead S iBit = 0) (hnack : searchNAckRead S iBit = 0) :
    searchStep addrStart lastConfPos iBit S addrOut cc
      = .ok (searchSelect S iBit (searchConflictChoice addrStart lastConfPos iBit cc).1,
             searchStoreBit (searchZeroByte addrOut iBit) iBit
               (searchConflictChoice addrStart lastConfPos iBit cc).1,
             (searchConflictChoice addrStart lastConfPos iBit cc).2,
             (searchConflictChoice addrStart lastConfPos iBit cc).1) := by
  unfold searchStep
  rw [hack, hnack]
  rw [if_pos ⟨rfl, rfl⟩]

/-- After the byte-boundary zeroing, the target bit of the output
buffer is clear (either this iteration zeroed the whole byte, or the
caller guarantees the bit was still clear from the earlier zeroing of
its byte). -/
theorem maskBit_zeroed (addrOut : List Nat) (iBit : Nat)
    (hlen : addrOut.length = 8) (hbit : iBit < 64)
    (hclear : iBit % 8 = 0 ∨ maskBitInArray addrOut iBit = 0) :
    maskBitInArray (searchZeroByte addrOut iBit) iBit = 0 := by
  unfold searchZeroByte
  rcases hclear with h8 | hz
  · rw [if_pos h8]
    unfold maskBitInArray
    rw [getD_set_self _ _ _ (by omega)]
    exact Nat.zero_and _
  · by_cases h8 : iBit % 8 = 0
    · rw [if_pos h8]
      unfold maskBitInArray
      rw [getD_set_self _ _ _ (by omega)]
      exact Nat.zero_and _
    · rw [if_neg h8]
      exact hz

/-- Storing a written value into a clear bit position leaves the
position's mask nonzero exactly when the value was nonzero. -/
theorem maskBit_storeBit (addrOut : List Nat) (iBit w : Nat)
    (hlen : addrOut.length = 8) (hbit : iBit < 64)
    (hz : maskBitInArray addrOut iBit = 0) :
    (maskBitInArray (searchStoreBit addrOut iBit w) iBit ≠ 0 ↔ w ≠ 0) := by
  unfold searchStoreBit
  by_cases hw : w ≠ 0
  · rw [if_pos hw]
    unfold maskBitInArray
    rw [getD_set_self _ _ _ (by omega)]
    exact ⟨fun _ => hw, fun _ => or_mask_ne_zero _ _⟩
  · rw [if_neg hw]
    simp only [not_not] at hw
    constructor
    · intro hne
      exact absurd hz hne
    · intro hwne
      exact absurd hw hwne

/-- Claim C3: in every iteration of the 64-bit search loop in which
both read slots return low (a conflict), the engine writes 1 when the
bit index equals the caller-supplied `lastConfPos`, and otherwise
writes the start address's bit at that index, recording the index as
the new conflict position exactly when that start-address bit is 0; in
either case the chosen value is the one passed to the write slot (the
value the slaves select on) and it is stored into the output address at
the same bit index. -/
theorem searchStep_conflict (addrStart : List Nat) (lastConfPos iBit : Nat)
    (S : List (List Nat)) (addrOut : List Nat) (cc : Int)
    (h0 : ∃ d ∈ S, maskBitInArray d iBit = 0)
    (h1 : ∃ d ∈ S, maskBitInArray d iBit ≠ 0)
    (hclear : iBit % 8 = 0 ∨ maskBitInArray addrOut iBit = 0)
    (hlen : addrOut.length = 8) (hbit : iBit < 64) :
    ∃ out' cc' w,
      searchStep addrStart lastConfPos iBit S addrOut cc
        = .ok (searchSelect S iBit w, out', cc', w) ∧
      w = (if iBit = lastConfPos then 1 else maskBitInArray addrStart iBit) ∧
      cc' = (if iBit ≠ lastConfPos ∧ maskBitInArray addrStart iBit = 0
             then (iBit : Int) else cc) ∧
      (maskBitInArray out' iBit ≠ 0 ↔ w ≠ 0) := by
  have hack : searchAckRead S iBit = 0 := by
    unfold searchAckRead
    rw [if_pos]
    obtain ⟨d, hd, hd0⟩ := h0
    exact List.any_eq_true.mpr ⟨d, hd, by simpa using hd0⟩
  have hnack : searchNAckRead S iBit = 0 := by
    unfold searchNAckRead
    rw [if_pos]
    obtain ⟨d, hd, hd1⟩ := h1
    exact List.any_eq_true.mpr ⟨d, hd, by simpa using hd1⟩
  refine ⟨_, _, (searchConflictChoice addrStart lastConfPos iBit cc).1,
    searchStep_conflict_eq addrStart lastConfPos iBit S addrOut cc hack hnack,
    ?_, ?_, ?_⟩
  · unfold searchConflictChoice
    by_cases hp : iBit = lastConfPos
    · rw [if_pos hp, if_pos hp]
    · rw [if_neg hp, if_neg hp, if_neg (by omega)]
      by_cases hm : maskBitInArray addrStart iBit = 0
      · rw [if_pos hm]
      · rw [if_neg hm]
  · unfold searchConflictChoice
    by_cases hp : iBit = lastConfPos
    · rw [if_pos hp, if_neg (by simp [hp])]
    · rw [if_neg hp, if_neg (by omega)]
      by_cases hm : maskBitInArray addrStart iBit = 0
      · rw [if_pos hm, if_pos ⟨hp, hm⟩]
      · rw [if_neg hm, if_neg (by simp [hm])]
  · exact maskBit_storeBit _ _ _
      (by unfold searchZeroByte; split <;> simp [hlen]) hbit
      (maskBit_zeroed _ _ hlen hbit hclear)

/-- Witness for `searchStep_conflict`: bit 0, two disagreeing slaves,
fresh search. -/
theorem searchStep_conflict_witness :
    ((∃ d ∈ [zeros8, badAddr], maskBitInArray d 0 = 0) ∧
     (∃ d ∈ [zeros8, badAddr], maskBitInArray d 0 ≠ 0) ∧
     ((0 : Nat) % 8 = 0 ∨ maskBitInArray zeros8 0 = 0) ∧
     zeros8.length = 8 ∧ (0 : Nat) < 64) ∧
    (∃ out' cc' w,
      searchStep zeros8 64 0 [zeros8, badAddr] zeros8 64
        = .ok (searchSelect [zeros8, badAddr] 0 w, out', cc', w) ∧
      w = (if (0 : Nat) = 64 then 1 else maskBitInArray zeros8 0) ∧
      cc' = (if (0 : Nat) ≠ 64 ∧ maskBitInArray zeros8 0 = 0
             then ((0 : Nat) : Int) else 64) ∧
      (maskBitInArray out' 0 ≠ 0 ↔ w ≠ 0)) :=
  ⟨⟨by decide, by decide, by decide, by decide, by decide⟩,
    searchStep_conflict zeros8 64 0 [zeros8, badAddr] zeros8 64
      (by decide) (by decide) (by decide) (by decide) (by decide)⟩

/-- A successful `searchStep` either keeps the running conflict
position or records the current bit index. -/
theorem searchStep_cc (addrStart : List Nat) (lastConfPos iBit : Nat)
    (S : List (List Nat)) (addrOut : List Nat) (cc : Int)
    (S' : List (List Nat)) (out' : List Nat) (cc' : Int) (w : Nat)
    (h : searchStep addrStart lastConfPos iBit S addrOut cc = .ok (S', out', cc', w)) :
    cc' = cc ∨ cc' = (iBit : Int) := by
  unfold searchStep searchConflictChoice at h
  split_ifs at h <;>
    simp only [Except.ok.injEq, Prod.mk.injEq] at h <;>
    omega

/-- Loop invariant: starting the 64-bit loop with a conflict position
in [0, 64] and enough bit budget, a completed run ends with a conflict
position in [0, 64]. -/
theorem searchLoop_cc_bound (addrStart : List Nat) (lastConfPos : Nat) (n : Nat) :
    ∀ (iBit : Nat) (S : List (List Nat)) (out : List Nat) (cc : Int)
      (S' : List (List Nat)) (out' : List Nat) (cc' : Int),
      0 ≤ cc → cc ≤ 64 → iBit + n ≤ 64 →
      searchLoop addrStart lastConfPos n iBit S out cc = .ok (S', out', cc') →
      0 ≤ cc' ∧ cc' ≤ 64 := by
  induction n with
  | zero =>
      intro iBit S out cc S' out' cc' hc0 hc64 hle h
      unfold searchLoop at h
      simp only [Except.ok.injEq, Prod.mk.injEq] at h
      omega
  | succ k ih =>
      intro iBit S out cc S' out' cc' hc0 hc64 hle h
      unfold searchLoop at h
      cases heq : searchStep addrStart lastConfPos iBit S out cc with
      | error e =>
          rw [heq] at h
          exact absurd h (by simp)
      | ok t =>
          obtain ⟨S1, out1, cc1, w⟩ := t
          rw [heq] at h
          simp only at h
          have hcc := searchStep_cc addrStart lastConfPos iBit S out cc S1 out1 cc1 w heq
          refine ih (iBit + 1) S1 out1 cc1 S' out' cc' ?_ ?_ (by omega) h
          · rcases hcc with h1 | h1 <;> omega
          · rcases hcc with h1 | h1 <;> omega

/-- Claim C4: for every run of `wire1Search` that completes all 64 bit
positions, the recorded conflict position lies in [0, 64]; if byte 7
of the output address differs from `crc8(0, 0x8C, addrOut, 7)` the
session state is set to IDLE and the call returns the failure value
-1, and if it matches the session state is set to FUNCTION_COMMAND and
the call returns the recorded conflict position. -/
theorem wire1Search_after64 (devs : List (List Nat)) (addrOut0 addrStart : List Nat)
    (lastConfPos romCmd : Nat) (S : List (List Nat)) (out : List Nat) (cc : Int)
    (hne : devs ≠ [])
    (hloop : searchLoop addrStart lastConfPos 64 0 devs addrOut0 64 = .ok (S, out, cc)) :
    (0 ≤ cc ∧ cc ≤ 64) ∧
    (out.getD W1_ADDR_BYTE_CRC 0 = crc8 0 W1_CRC_POLYNOMIAL out 7 →
      wire1Search devs addrOut0 addrStart lastConfPos romCmd = (cc, FUNCTION_COMMAND, out)) ∧
    (out.getD W1_ADDR_BYTE_CRC 0 ≠ crc8 0 W1_CRC_POLYNOMIAL out 7 →
      wire1Search devs addrOut0 addrStart lastConfPos romCmd = (-1, IDLE, out)) := by
  refine ⟨searchLoop_cc_bound addrStart lastConfPos 64 0 devs addrOut0 64 S out cc
      (by omega) (by omega) (by omega) hloop, ?_, ?_⟩
  · intro hcrc
    unfold wire1Search
    rw [if_neg (by simp [hne]), hloop]
    simp only
    rw [if_pos hcrc]
  · intro hcrc
    unfold wire1Search
    rw [if_neg (by simp [hne]), hloop]
    simp only
    rw [if_neg hcrc]

set_option maxRecDepth 40000 in
/-- Witness for `wire1Search_after64`: a single-device bus whose loop
completes with the device's address and the sentinel 64. -/
theorem wire1Search_after64_witness :
    (([devD] : List (List Nat)) ≠ [] ∧
     searchLoop zeros8 64 64 0 [devD] zeros8 64 = .ok ([devD], devD, 64)) ∧
    ((0 ≤ (64 : Int) ∧ (64 : Int) ≤ 64) ∧
     (devD.getD W1_ADDR_BYTE_CRC 0 = crc8 0 W1_CRC_POLYNOMIAL devD 7 →
       wire1Search [devD] zeros8 zeros8 64 W1_ROMCMD_SEARCH = (64, FUNCTION_COMMAND, devD)) ∧
     (devD.getD W1_ADDR_BYTE_CRC 0 ≠ crc8 0 W1_CRC_POLYNOMIAL devD 7 →
       wire1Search [devD] zeros8 zeros8 64 W1_ROMCMD_SEARCH = (-1, IDLE, devD))) :=
  ⟨⟨by decide, by rfl⟩,
    wire1Search_after64 [devD] zeros8 zeros8 64 W1_ROMCMD_SEARCH [devD] devD 64
      (by decide) (by rfl)⟩
